import Mathlib

/-!
Shallow embedding of the scatter-gather execution engine of
`src/sfs/app/app.py` (simple-forecast-solution), together with theorems
settling the spec claims about it.

Modelling conventions:
* a pandas dataframe is a list of records (one structure per table shape);
* a `concurrent.futures` future, once the batch has been drained, is a
  `Handle` that is either `completed` with its unit result or `failed`
  with the raised error message (`drain` blocks until every future has
  resolved, so a still-pending state never reaches the aggregation code);
* `futures.as_completed(wait_for)` yields the futures in completion
  order, an arbitrary permutation of the submitted batch; the
  aggregation functions therefore take the completion-ordered list as
  input, and theorems quantify over all permutations of the batch;
* the opaque per-unit compute function (`run_cv_select`, which lives in
  the `sfs` package, outside `src/`) is modelled from the spec: it
  yields a `UnitResult` holding an ordered block of prediction rows and
  a single metrics record;
* numeric demand values are modelled as `Int`.
-/

namespace SFS

/-- Decidable equality of `Except` values, so that concrete runs of the
fallible aggregation functions can be checked by `decide`. -/
instance {ε α : Type} [DecidableEq ε] [DecidableEq α] :
    DecidableEq (Except ε α) := fun x y =>
  match x, y with
  | .ok a, .ok b => decidable_of_iff (a = b) (by simp)
  | .ok _, .error _ => isFalse (by intro hc; cases hc)
  | .error _, .ok _ => isFalse (by intro hc; cases hc)
  | .error e, .error f => decidable_of_iff (e = f) (by simp)

/-- The composite grouping key `GROUP_COLS = (channel, family, item_id)`. -/
abbrev GroupKey := String × String × String

/-- One row of the validated input dataset (columns `timestamp`,
`channel`, `family`, `item_id`, `demand`). -/
structure Row where
  timestamp : Nat
  channel : String
  family : String
  item_id : String
  demand : Int
deriving DecidableEq

/-- The grouping key of an input row. -/
def Row.key (r : Row) : GroupKey := (r.channel, r.family, r.item_id)

/-- One row of a per-unit `df_pred` prediction table: group-key columns,
`timestamp`, `demand`, and the `type` column (modelled as `kind`,
holding `"actual"` or `"forecast"`). -/
structure PredRow where
  timestamp : Nat
  channel : String
  family : String
  item_id : String
  demand : Int
  kind : String
deriving DecidableEq

/-- The grouping key of a prediction row. -/
def PredRow.key (p : PredRow) : GroupKey := (p.channel, p.family, p.item_id)

/-- Modelled from the spec: the single metrics record a unit computation
produces (`metrics: record{model_type, error_scores...}`), carrying its
group key as columns. The producing function `run_cv_select` is code of
this repository that is not under `src/`. -/
structure MetricRow where
  channel : String
  family : String
  item_id : String
  model_type : String
  error_score : Int
deriving DecidableEq

/-- The grouping key of a metrics row. -/
def MetricRow.key (m : MetricRow) : GroupKey := (m.channel, m.family, m.item_id)

/-- Modelled from the spec: the result of one successful unit
computation, `(df_pred, df_results)` — an ordered block of prediction
rows plus one metrics record. -/
structure UnitResult where
  pred : List PredRow
  metrics : MetricRow
deriving DecidableEq

/-- A resolved future of the batch: `completed` with its `UnitResult`,
or `failed` with the error message that `f.result()` would raise. -/
inductive Handle where
  | completed (r : UnitResult)
  | failed (e : String)
deriving DecidableEq

/-- Whether a handle resolved successfully (`f.done()` with a result). -/
def Handle.isCompleted : Handle → Bool
  | .completed _ => true
  | .failed _ => false

/-- The group keys of the successfully completed handles of a batch, in
batch order. -/
def completedKeys (batch : List Handle) : List GroupKey :=
  batch.filterMap fun h =>
    match h with
    | .completed r => some r.metrics.key
    | .failed _ => none

/-- One payload of `run_lambdamap`:
`{"args": (dd, horiz, freq), "kwargs": {"obj_metric": ..., "cv_stride": ...}}`. -/
structure Payload where
  rows : List Row
  horiz : Nat
  freq : String
  obj_metric : String
  cv_stride : Nat
deriving DecidableEq

/-- First-seen deduplication, the key order of
`df.groupby(GROUP_COLS, sort=False)`: keeps the first occurrence of
every element, in order of first appearance. (`List.dedup` keeps last
occurrences, so we dedup the reversal and reverse back.) -/
def firstSeen {α : Type} [DecidableEq α] (l : List α) : List α :=
  l.reverse.dedup.reverse

/-- `df.groupby(GROUP_COLS, as_index=False, sort=False)`: one group per
distinct key, keys in first-seen order, each group holding its rows in
original dataframe order. -/
def groupbyNoSort (df : List Row) : List (GroupKey × List Row) :=
  (firstSeen (df.map Row.key)).map fun k =>
    (k, df.filter fun r => decide (r.key = k))

/-- The payload list built by `run_lambdamap`: one payload per group of
`df.groupby(GROUP_COLS, as_index=False, sort=False)`, with
`obj_metric="smape_mean"` and `cv_stride=2`. -/
def run_lambdamap_payloads (df : List Row) (horiz : Nat) (freq : String) :
    List Payload :=
  (groupbyNoSort df).map fun g =>
    { rows := g.2, horiz := horiz, freq := freq
      obj_metric := "smape_mean", cv_stride := 2 }

/-- The worker-pool size `run_lambdamap` passes to `StreamlitExecutor`:
`max_workers = min(1000, len(payloads))`. -/
def run_lambdamap_max_workers (payloads : List Payload) : Nat :=
  min 1000 payloads.length

/-- `StreamlitExecutor.map`: submits each payload to the pool exactly
once (`ex.submit(f, *p["args"], **p["kwargs"])`, one call per payload).
The behaviour of the compute function is modelled as attempt-indexed
(`f p a` is the outcome of the `a`-th invocation attempt on payload
`p`, so that a retry policy could be expressed); the code performs only
attempt `0` and resolves the future from it. -/
def StreamlitExecutor_map (f : Payload → Nat → Except String UnitResult)
    (payloads : List Payload) : List Handle :=
  payloads.map fun p =>
    match f p 0 with
    | .ok r => .completed r
    | .error e => .failed e

/-- `run_lambdamap df horiz freq`: partitions the dataset, sizes the
executor pool, and submits every payload, returning the batch of
futures (`wait_for`). -/
structure LambdamapLaunch where
  payloads : List Payload
  max_workers : Nat
  wait_for : List Handle
deriving DecidableEq

/-- The full `run_lambdamap` pipeline over a modelled compute function. -/
def run_lambdamap (f : Payload → Nat → Except String UnitResult)
    (df : List Row) (horiz : Nat) (freq : String) : LambdamapLaunch :=
  let ps := run_lambdamap_payloads df horiz freq
  { payloads := ps
    max_workers := run_lambdamap_max_workers ps
    wait_for := StreamlitExecutor_map f ps }

/-- The polling loop of `display_progress`, with explicit fuel.
`obs t` is the value of `sum(f.done() for f in wait_for)` at the `t`-th
observation (the code re-counts once before the loop and once per
iteration). Returns `some (iterations, updates)` where `iterations` is
the number of times the `while` body ran and `updates` is the sequence
of deltas passed to `pbar.update` (the loop's updates followed by the
final `pbar.update(diff)` after the loop); `none` when the fuel runs
out before `n_done == total`. -/
def dpGo (obs : Nat → Nat) (total : Nat) :
    Nat → Nat → Nat → Option (Nat × List Int)
  | 0, _, _ => none
  | fuel + 1, t, prev =>
    let n := obs t
    if n = total then
      some (t, [(n : Int) - (prev : Int)])
    else
      match dpGo obs total fuel (t + 1) n with
      | some (iters, updates) => some (iters, ((n : Int) - (prev : Int)) :: updates)
      | none => none

/-- `display_progress wait_for`: `prev_n_done = 0`, first count, then
the polling loop. `total = len(wait_for)`. -/
def display_progress (obs : Nat → Nat) (total fuel : Nat) :
    Option (Nat × List Int) :=
  dpGo obs total fuel 0 0

/-- Pointwise conjunction of two boolean masks (`mask &= ...`). -/
def andMask (a b : List Bool) : List Bool := a.zipWith and b

/-- `make_mask df channel family item_id` (both copies in the source are
identical): start from the all-ones mask; if any key is empty return
its negation (the all-false mask); otherwise conjoin the three
column-equality masks. `kOf` projects the three key columns out of a
row of whichever table the mask is built over. -/
def make_mask {α : Type} (kOf : α → GroupKey) (df : List α)
    (channel family item_id : String) : List Bool :=
  let mask := df.map fun _ => true
  if channel = "" ∨ family = "" ∨ item_id = "" then
    mask.map (!·)
  else
    andMask (andMask (andMask mask (df.map fun r => decide ((kOf r).1 = channel)))
        (df.map fun r => decide ((kOf r).2.1 = family)))
      (df.map fun r => decide ((kOf r).2.2 = item_id))

/-- `f.result()` on a resolved future: the unit result, or the raised
error for a failed future. -/
def Handle.resultE : Handle → Except String UnitResult
  | .completed r => .ok r
  | .failed e => .error e

/-- `raw_results = [f.result() for f in futures.as_completed(wait_for)]`:
the argument is the batch in completion order; the comprehension raises
(propagates) the first failed future's error. -/
def drainRaw : List Handle → Except String (List UnitResult)
  | [] => .ok []
  | h :: t =>
    match h.resultE with
    | .ok r =>
      match drainRaw t with
      | .ok rs => .ok (r :: rs)
      | .error e => .error e
    | .error e => .error e

/-- `state.df_results = pd.concat(results_lst)`: one metrics record per
drained unit, in drained (completion) order. -/
def concatResults (rs : List UnitResult) : List MetricRow :=
  rs.map (·.metrics)

/-- `state.df_pred = pd.concat(pred_lst)`: the units' prediction blocks
concatenated in drained (completion) order. -/
def concatPred (rs : List UnitResult) : List PredRow :=
  (rs.map (·.pred)).flatten

/-- The predictions table of a drain, or the propagated failure:
`Except`-level composition of `drainRaw` and `concatPred`. -/
def drainPred (cord : List Handle) : Except String (List PredRow) :=
  match drainRaw cord with
  | .ok rs => .ok (concatPred rs)
  | .error e => .error e

/-- `state.df_hist = state.df_pred.query("type == 'actual'")`. -/
def dfHist (dfPred : List PredRow) : List PredRow :=
  dfPred.filter fun p => decide (p.kind = "actual")

/-- Lexicographic boolean comparison of group keys, the key order in
which `df.groupby(GROUP_COLS)` (default `sort=True`) emits groups. -/
def keyLeB (a b : GroupKey) : Bool :=
  match compare a.1 b.1 with
  | .lt => true
  | .gt => false
  | .eq =>
    match compare a.2.1 b.2.1 with
    | .lt => true
    | .gt => false
    | .eq =>
      match compare a.2.2 b.2.2 with
      | .gt => false
      | _ => true

/-- `keyLeB` as a decidable relation for sorting. -/
def keyLeP (a b : GroupKey) : Prop := keyLeB a b = true

instance : DecidableRel keyLeP := fun a b => by
  unfold keyLeP; exact inferInstance

/-- Sum of the `demand` column over the rows of one group. -/
def sumDemand (df : List PredRow) (k : GroupKey) : Int :=
  ((df.filter fun p => decide (p.key = k)).map (·.demand)).sum

/-- `df.groupby(GROUP_COLS, as_index=False).agg({"demand": sum})`:
one `(key, total demand)` record per distinct key, keys in sorted
order (pandas `groupby` defaults to `sort=True`). -/
def groupbyAggSorted (df : List PredRow) : List (GroupKey × Int) :=
  (List.insertionSort keyLeP (firstSeen (df.map PredRow.key))).map fun k =>
    (k, sumDemand df k)

/-- Non-increasing order on the summed `demand` column, the relation of
`sort_values(by="demand", ascending=False)` (the unstable quicksort of
the source is modelled as a stable sort). -/
def demandGeP (a b : GroupKey × Int) : Prop := b.2 ≤ a.2

instance : DecidableRel demandGeP := fun a b => by
  unfold demandGeP; exact inferInstance

instance : IsTotal (GroupKey × Int) demandGeP :=
  ⟨fun a b => (le_total b.2 a.2).elim Or.inl Or.inr⟩

instance : IsTrans (GroupKey × Int) demandGeP :=
  ⟨fun _ _ _ h1 h2 => le_trans h2 h1⟩

/-- `n_top = 10` in `make_dataframes`. -/
def nTop : Nat := 10

/-- The unindexed leaderboard of `make_dataframes`:
`df_hist.groupby(GROUP_COLS, as_index=False).agg({"demand": sum})
.sort_values(by="demand", ascending=False).head(n_top)`. -/
def dfTopUnindexed (hist : List PredRow) : List (GroupKey × Int) :=
  (List.insertionSort demandGeP (groupbyAggSorted hist)).take nTop

/-- `df_top.assign(_index=np.arange(n_top)+1).set_index("_index")`:
assigning a length-`n_top` column requires the frame to have exactly
`n_top` rows, otherwise pandas raises
`ValueError: Length of values does not match length of index`. -/
def assignTopIndex (top : List (GroupKey × Int)) :
    Except String (List (Nat × GroupKey × Int)) :=
  if top.length = nTop then
    .ok (((List.range nTop).map (· + 1)).zip top)
  else
    .error "Length of values does not match length of index"

/-- The tables `make_dataframes` stores on the session state. -/
structure Frames where
  df_pred : List PredRow
  df_results : List MetricRow
  df_hist : List PredRow
  df_top : List (Nat × GroupKey × Int)
deriving DecidableEq

/-- `make_dataframes state wait_for` over the completion-ordered batch:
drain every future (raising the first failure), build `df_results` and
`df_pred`, filter `df_hist`, and build the indexed `df_top`
leaderboard. The external `make_demand_classification` /
`make_perf_summary` collaborators operate on other state fields and are
outside the modelled outputs. -/
def make_dataframes (cord : List Handle) : Except String Frames :=
  match drainRaw cord with
  | .error e => .error e
  | .ok rs =>
    let dfPred := concatPred rs
    let dfResults := concatResults rs
    let hist := dfHist dfPred
    match assignTopIndex (dfTopUnindexed hist) with
    | .error e => .error e
    | .ok top => .ok ⟨dfPred, dfResults, hist, top⟩

/-- Modelled from the spec claim wording: a leaderboard ranked by
cumulative demand whose ties keep first-seen groupKey order — a stable
demand sort over the groups taken in first-seen order, truncated to
`n_top`. Compared against the source-derived `dfTopUnindexed`. -/
def leaderboardFirstSeen (hist : List PredRow) : List (GroupKey × Int) :=
  (List.insertionSort demandGeP
    ((firstSeen (hist.map PredRow.key)).map fun k => (k, sumDemand hist k))).take nTop

/-! Concrete exemplar data used by counterexamples and witnesses. -/

/-- Prediction block of the exemplar unit for group `("web","fam","a")`. -/
def exRowsA : List PredRow :=
  [⟨0, "web", "fam", "a", 3, "actual"⟩, ⟨1, "web", "fam", "a", 4, "forecast"⟩]

/-- Metrics record of the exemplar unit for group `("web","fam","a")`. -/
def exMetA : MetricRow := ⟨"web", "fam", "a", "arima", 5⟩

/-- Exemplar unit result for group `("web","fam","a")`. -/
def exUnitA : UnitResult := ⟨exRowsA, exMetA⟩

/-- Prediction block of the exemplar unit for group `("web","fam","b")`. -/
def exRowsB : List PredRow :=
  [⟨0, "web", "fam", "b", 7, "actual"⟩, ⟨1, "web", "fam", "b", 8, "forecast"⟩]

/-- Metrics record of the exemplar unit for group `("web","fam","b")`. -/
def exMetB : MetricRow := ⟨"web", "fam", "b", "ets", 9⟩

/-- Exemplar unit result for group `("web","fam","b")`. -/
def exUnitB : UnitResult := ⟨exRowsB, exMetB⟩

/-- A two-unit batch in submission (Batch) order: unit A, then unit B. -/
def exBatchAB : List Handle := [.completed exUnitA, .completed exUnitB]

/-- The same two futures in a completion order that reverses the
submission order: B completed before A. -/
def exCordBA : List Handle := [.completed exUnitB, .completed exUnitA]

/-- A completion-ordered batch whose second future failed. -/
def exCordFail : List Handle := [.completed exUnitA, .failed "boom"]

/-- An exemplar payload (empty series group, horizon 1, daily). -/
def exPayload : Payload := ⟨[], 1, "D", "smape_mean", 2⟩

/-- A modelled compute behaviour with a transient invocation error:
attempt 0 raises a timeout, every later attempt would succeed. -/
def exTransient : Payload → Nat → Except String UnitResult :=
  fun _ a => if a = 0 then .error "timeout" else .ok exUnitA

/-- A single unit whose two actual rows hit groups `b` (first seen) and
`a`, with equal cumulative demand — a tie for the leaderboard. -/
def exUnitTie : UnitResult :=
  ⟨[⟨0, "web", "fam", "b", 5, "actual"⟩, ⟨0, "web", "fam", "a", 5, "actual"⟩],
    ⟨"web", "fam", "b", "arima", 1⟩⟩

/-! Helper lemmas about the embedded operations. -/

/-- `firstSeen` is a permutation of `dedup`: same distinct elements. -/
lemma firstSeen_perm_dedup {α : Type} [DecidableEq α] (l : List α) :
    (firstSeen l).Perm l.dedup :=
  (List.reverse_perm _).trans (l.reverse_perm.dedup)

/-- `firstSeen` has no duplicates. -/
lemma firstSeen_nodup {α : Type} [DecidableEq α] (l : List α) :
    (firstSeen l).Nodup :=
  List.nodup_reverse.mpr (List.nodup_dedup _)

/-- `firstSeen` enumerates exactly the elements of the list. -/
lemma mem_firstSeen {α : Type} [DecidableEq α] {x : α} {l : List α} :
    x ∈ firstSeen l ↔ x ∈ l := by
  simp [firstSeen]

/-- `firstSeen` has as many entries as there are distinct elements. -/
lemma firstSeen_length {α : Type} [DecidableEq α] (l : List α) :
    (firstSeen l).length = l.dedup.length :=
  (firstSeen_perm_dedup l).length_eq

/-- Draining a batch in which every future completed returns exactly
the unit results, in the drained order. -/
lemma drainRaw_map_completed (rs : List UnitResult) :
    drainRaw (rs.map Handle.completed) = .ok rs := by
  induction rs with
  | nil => rfl
  | cons r t ih => simp [drainRaw, Handle.resultE, ih]

/-- If draining succeeded, every future of the batch had completed with
the corresponding returned unit result. -/
lemma drainRaw_ok_elim {cord : List Handle} {rs : List UnitResult}
    (h : drainRaw cord = .ok rs) : cord = rs.map Handle.completed := by
  induction cord generalizing rs with
  | nil =>
    simp only [drainRaw, Except.ok.injEq] at h
    rw [← h]
    rfl
  | cons hd t ih =>
    cases hd with
    | completed r =>
      cases hrec : drainRaw t with
      | ok rs' =>
        simp only [drainRaw, Handle.resultE, hrec, Except.ok.injEq] at h
        rw [← h, List.map_cons, ← ih hrec]
      | error e =>
        simp [drainRaw, Handle.resultE, hrec] at h
    | failed e =>
      simp [drainRaw, Handle.resultE] at h

/-- A failed future anywhere in the completion order makes the drain
comprehension raise. -/
lemma drainRaw_error_of_mem_failed {cord : List Handle} {e : String}
    (hmem : Handle.failed e ∈ cord) : ∃ e', drainRaw cord = .error e' := by
  induction cord with
  | nil => cases hmem
  | cons h t ih =>
    cases h with
    | completed r =>
      have : Handle.failed e ∈ t := by
        rcases List.mem_cons.mp hmem with hh | hh
        · cases hh
        · exact hh
      obtain ⟨e', he'⟩ := ih this
      exact ⟨e', by simp [drainRaw, Handle.resultE, he']⟩
    | failed e0 =>
      exact ⟨e0, by simp [drainRaw, Handle.resultE]⟩

/-- A member of a flattened list of blocks splits the flattening into a
prefixed part, the block itself, and a suffixed part: each block's rows
stay contiguous and in order. -/
lemma flatten_decomp {α : Type} {l : List α} {L : List (List α)}
    (h : l ∈ L) : ∃ pre post, L.flatten = pre ++ (l ++ post) := by
  induction L with
  | nil => cases h
  | cons b T ih =>
    rcases List.mem_cons.mp h with hb | hb
    · exact ⟨[], T.flatten, by simp [hb]⟩
    · obtain ⟨pre, post, hpp⟩ := ih hb
      exact ⟨b ++ pre, post, by simp [hpp]⟩

/-- Distinct-element counts are monotone under list inclusion. -/
lemma dedup_length_le_of_subset {α : Type} [DecidableEq α]
    {l₁ l₂ : List α} (h : l₁ ⊆ l₂) : l₁.dedup.length ≤ l₂.dedup.length := by
  have h1 : l₁.dedup.toFinset.card = l₁.dedup.length :=
    List.toFinset_card_of_nodup (List.nodup_dedup _)
  have h2 : l₂.dedup.toFinset.card = l₂.dedup.length :=
    List.toFinset_card_of_nodup (List.nodup_dedup _)
  have hsub : l₁.dedup.toFinset ⊆ l₂.dedup.toFinset := by
    intro x hx
    rw [List.mem_toFinset] at hx ⊢
    exact List.mem_dedup.mpr (h (List.mem_dedup.mp hx))
  calc l₁.dedup.length = l₁.dedup.toFinset.card := h1.symm
    _ ≤ l₂.dedup.toFinset.card := Finset.card_le_card hsub
    _ = l₂.dedup.length := h2

/-! Claim theorems. -/

/-- C1, counterexample: the claim states that for an all-completed
batch the predictions table keeps the units' blocks in Batch
(submission) order regardless of completion order. On the completion
order that reverses the two-unit batch `exBatchAB`, the drained
predictions table differs from the Batch-order concatenation: the code
iterates `futures.as_completed`, which yields completion order. -/
theorem claim_C1_counterexample :
    List.Perm exCordBA exBatchAB
    ∧ exBatchAB.all Handle.isCompleted = true
    ∧ drainPred exCordBA ≠ Except.ok (concatPred [exUnitA, exUnitB]) := by
  decide

/-- C1, amended: when draining succeeds, the predictions table is the
concatenation of the units' prediction blocks in handle-completion
order — each unit's rows stay contiguous and in their internal order,
but across units the order is completion order, not submission order. -/
theorem claim_C1_amended (cord : List Handle) (rs : List UnitResult)
    (h : drainRaw cord = .ok rs) :
    drainPred cord = .ok (concatPred rs)
    ∧ ∀ r ∈ rs, ∃ pre post, concatPred rs = pre ++ (r.pred ++ post) := by
  constructor
  · simp [drainPred, h]
  · intro r hr
    exact flatten_decomp (List.mem_map_of_mem _ hr)

/-- C1, witness: the amended theorem applied to the concrete reversed
completion order of the two-unit exemplar batch. -/
theorem claim_C1_witness :
    drainPred exCordBA = Except.ok (concatPred [exUnitB, exUnitA]) :=
  (claim_C1_amended exCordBA [exUnitB, exUnitA] (by decide)).1

/-- C2, counterexample: the claim states that a batch with a failed
future still drains to an aggregated output with the failure recorded
in a side list. On the concrete batch whose second future failed, the
drain comprehension calls `f.result()`, which re-raises the failure and
aborts the whole aggregation: `make_dataframes` returns the propagated
error, not an output. -/
theorem claim_C2_counterexample :
    make_dataframes exCordFail = Except.error "boom" := by
  decide

/-- C2, amended: a per-unit execution failure anywhere in the batch
aborts the whole drain — `make_dataframes` propagates a raised error
and produces no tables (there is no partial-failure side list in the
code). -/
theorem claim_C2_amended (cord : List Handle) (e : String)
    (hmem : Handle.failed e ∈ cord) :
    ∃ e', make_dataframes cord = Except.error e' := by
  obtain ⟨e', he'⟩ := drainRaw_error_of_mem_failed hmem
  exact ⟨e', by simp [make_dataframes, he']⟩

/-- C2, witness: the amended theorem applied to the concrete batch with
one failed future. -/
theorem claim_C2_witness :
    ∃ e', make_dataframes exCordFail = Except.error e' :=
  claim_C2_amended exCordFail "boom" (by decide)

/-- C3: the partition step emits exactly one payload per distinct
`(channel, family, item_id)` triple of the dataset — the payload count
equals the distinct-triple count, and the group keys are duplicate-free
(no triple yields two payloads). -/
theorem claim_C3 (df : List Row) (horiz : Nat) (freq : String) :
    (run_lambdamap_payloads df horiz freq).length = (df.map Row.key).dedup.length
    ∧ ((groupbyNoSort df).map Prod.fst).Nodup := by
  constructor
  · simp [run_lambdamap_payloads, groupbyNoSort, firstSeen_length]
  · have hmap : (groupbyNoSort df).map Prod.fst = firstSeen (df.map Row.key) := by
      simp only [groupbyNoSort, List.map_map]
      exact List.map_congr_left (fun a _ => rfl) |>.trans (List.map_id _)
    rw [hmap]
    exact firstSeen_nodup _

/-- C4: `run_lambdamap` sizes the executor's worker pool as
`min(1000, len(payloads))`, which is bounded by the 1000 invocation
ceiling and by the unit count. (That in-flight submissions never exceed
the pool size is the contract of the underlying worker-pool executor,
an external collaborator.) -/
theorem claim_C4 (f : Payload → Nat → Except String UnitResult)
    (df : List Row) (horiz : Nat) (freq : String) :
    (run_lambdamap f df horiz freq).max_workers
        = min 1000 (run_lambdamap f df horiz freq).payloads.length
    ∧ (run_lambdamap f df horiz freq).max_workers ≤ 1000
    ∧ (run_lambdamap f df horiz freq).max_workers
        ≤ (run_lambdamap f df horiz freq).payloads.length :=
  ⟨rfl, Nat.min_le_left _ _, Nat.min_le_right _ _⟩

/-- C5: when a batch drains successfully (a permutation `cord` of the
batch is consumed in completion order), the metrics table has exactly
one row per Completed handle — its length equals the number of
Completed handles of the batch — and, given the partitioner's
invariant that the units' group keys are distinct, every group key
appears at most once in it. -/
theorem claim_C5 (batch cord : List Handle) (rs : List UnitResult)
    (hperm : List.Perm cord batch)
    (hok : drainRaw cord = .ok rs)
    (hnd : (completedKeys batch).Nodup) :
    (concatResults rs).length = batch.countP Handle.isCompleted
    ∧ ((concatResults rs).map MetricRow.key).Nodup := by
  have hcord : cord = rs.map Handle.completed := drainRaw_ok_elim hok
  constructor
  · have hall : ∀ h ∈ batch, Handle.isCompleted h = true := by
      intro h hh
      have hc : h ∈ cord := hperm.mem_iff.mpr hh
      rw [hcord] at hc
      obtain ⟨r, _, hr⟩ := List.mem_map.mp hc
      rw [← hr]
      rfl
    have hlen : (concatResults rs).length = rs.length := by
      simp [concatResults]
    have hcl : cord.length = rs.length := by
      rw [hcord, List.length_map]
    rw [hlen, List.countP_eq_length.mpr hall, ← hperm.length_eq, hcl]
  · have hkeys : (concatResults rs).map MetricRow.key = completedKeys cord := by
      rw [hcord]
      have hfm := List.filterMap_eq_map (fun x : UnitResult => x.metrics.key)
      simp only [Function.comp_def] at hfm
      simp [completedKeys, concatResults, List.filterMap_map, Function.comp_def, hfm]
    have hpermk : (completedKeys cord).Perm (completedKeys batch) :=
      hperm.filterMap _
    rw [hkeys]
    exact hpermk.symm.nodup hnd

/-- C5, witness: the theorem applied to the exemplar two-unit batch
drained in reversed completion order. -/
theorem claim_C5_witness :
    (concatResults [exUnitB, exUnitA]).length = exBatchAB.countP Handle.isCompleted
    ∧ ((concatResults [exUnitB, exUnitA]).map MetricRow.key).Nodup :=
  claim_C5 exBatchAB exCordBA [exUnitB, exUnitA] (by decide) (by decide) (by decide)

/-- C6, counterexample: on an empty batch (`total == 0`) the polling
loop body indeed never runs (zero iterations), but the claim that the
progress callback is never invoked is false: after the loop the code
unconditionally calls `pbar.update(diff)` once, with delta `0` — the
update trace is `[0]`, not `[]`. -/
theorem claim_C6_counterexample :
    display_progress (fun _ => 0) 0 1 = some (0, [0])
    ∧ (display_progress (fun _ => 0) 0 1).map (fun x => x.2.length) ≠ some 0 := by
  decide

/-- C6, amended: invoked on an empty batch, `display_progress` returns
immediately — the polling loop body runs zero times — and the progress
bar receives exactly one trailing update, with delta `0`. Any
observation function is admissible since an empty batch can never show
a positive done-count. -/
theorem claim_C6_amended (obs : Nat → Nat) (fuel : Nat)
    (h : ∀ t, obs t ≤ 0) :
    display_progress obs 0 (fuel + 1) = some (0, [0]) := by
  have h0 : obs 0 = 0 := Nat.le_zero.mp (h 0)
  simp [display_progress, dpGo, h0]

/-- C6, witness: the amended theorem at the constant-zero observation
with minimal fuel. -/
theorem claim_C6_witness :
    display_progress (fun _ => 0) 0 (0 + 1) = some (0, [0]) :=
  claim_C6_amended (fun _ => 0) 0 (fun _ => Nat.le_refl 0)

/-- C7, counterexample: the claim states a transient invocation error
is retried up to `retryLimit` attempts before the handle fails. The
modelled behaviour `exTransient` fails on attempt 0 and would succeed
on any retry, yet `StreamlitExecutor.map` resolves the handle to
`Failed` immediately: each payload is submitted exactly once and no
retry loop exists in the code. -/
theorem claim_C7_counterexample :
    StreamlitExecutor_map exTransient [exPayload] = [Handle.failed "timeout"]
    ∧ exTransient exPayload 1 = Except.ok exUnitA := by
  decide

/-- C7, amended: the resolved batch depends only on attempt 0 of the
compute behaviour (later attempts are never made), and an invocation
error on that single attempt resolves the unit's handle to `Failed`
with that error. -/
theorem claim_C7_amended (f g : Payload → Nat → Except String UnitResult)
    (payloads : List Payload)
    (hfg : ∀ p, f p 0 = g p 0) :
    StreamlitExecutor_map f payloads = StreamlitExecutor_map g payloads
    ∧ ∀ (i : Nat) (p : Payload) (e : String), payloads[i]? = some p →
        f p 0 = Except.error e →
        (StreamlitExecutor_map f payloads)[i]? = some (Handle.failed e) := by
  constructor
  · exact List.map_congr_left fun p _ => by rw [hfg p]
  · intro i p e hp hf
    unfold StreamlitExecutor_map
    rw [List.getElem?_map, hp]
    simp [hf]

/-- C7, witness: the amended theorem applied to the transient-failure
behaviour on a one-payload batch. -/
theorem claim_C7_witness :
    (StreamlitExecutor_map exTransient [exPayload])[0]? = some (Handle.failed "timeout") :=
  (claim_C7_amended exTransient exTransient [exPayload] (fun _ => rfl)).2
    0 exPayload "timeout" (by decide) (by decide)

/-- C8, counterexample: the claim states leaderboard ties are ordered
by first-seen groupKey order. On a drained batch whose two groups tie
on cumulative demand with group `b` seen first, the code's leaderboard
(groupby emits keys sorted, then the demand sort) differs from the
first-seen-tie-break leaderboard of the claim. -/
theorem claim_C8_counterexample :
    dfTopUnindexed (dfHist (concatPred [exUnitTie]))
      ≠ leaderboardFirstSeen (dfHist (concatPred [exUnitTie])) := by
  decide

/-- C8, amended: the leaderboard is the top-`n_top` groups by
cumulative historical demand — it has `min n_top G` entries, is in
non-increasing demand order, splits off a remainder that completes a
permutation of all group totals, and every listed entry's demand is at
least every omitted group's. Ties, however, follow the demand sort over
the key-sorted groups, not first-seen groupKey order. -/
theorem claim_C8_amended (hist : List PredRow) :
    (dfTopUnindexed hist).length = min nTop (groupbyAggSorted hist).length
    ∧ (dfTopUnindexed hist).Pairwise demandGeP
    ∧ List.Perm
        (dfTopUnindexed hist
          ++ (List.insertionSort demandGeP (groupbyAggSorted hist)).drop nTop)
        (groupbyAggSorted hist)
    ∧ ∀ x ∈ dfTopUnindexed hist,
        ∀ y ∈ (List.insertionSort demandGeP (groupbyAggSorted hist)).drop nTop,
          demandGeP x y := by
  have hsorted : (List.insertionSort demandGeP (groupbyAggSorted hist)).Pairwise demandGeP :=
    List.sorted_insertionSort demandGeP _
  have hperm : (List.insertionSort demandGeP (groupbyAggSorted hist)).Perm
      (groupbyAggSorted hist) := List.perm_insertionSort demandGeP _
  have hsplit : (List.insertionSort demandGeP (groupbyAggSorted hist)).take nTop
      ++ (List.insertionSort demandGeP (groupbyAggSorted hist)).drop nTop
      = List.insertionSort demandGeP (groupbyAggSorted hist) :=
    List.take_append_drop nTop _
  have htop : dfTopUnindexed hist
      = (List.insertionSort demandGeP (groupbyAggSorted hist)).take nTop := rfl
  refine ⟨?_, ?_, ?_, ?_⟩
  · rw [htop, List.length_take, hperm.length_eq]
  · rw [htop]
    exact List.Pairwise.sublist (List.take_sublist _ _) hsorted
  · rw [htop, hsplit]
    exact hperm
  · intro x hx y hy
    rw [htop] at hx
    exact (List.pairwise_append.mp (hsplit.symm ▸ hsorted)).2.2 x hx y hy

/-- C8, witness: the amended theorem evaluated on the concrete tied
leaderboard input. -/
theorem claim_C8_witness :
    (dfTopUnindexed (dfHist (concatPred [exUnitTie]))).length
        = min nTop (groupbyAggSorted (dfHist (concatPred [exUnitTie]))).length
    ∧ (dfTopUnindexed (dfHist (concatPred [exUnitTie]))).Pairwise demandGeP :=
  ⟨(claim_C8_amended (dfHist (concatPred [exUnitTie]))).1,
    (claim_C8_amended (dfHist (concatPred [exUnitTie]))).2.1⟩

/-- C9: when a successfully drained batch covers fewer than 10 distinct
group keys (each unit's prediction rows carrying its own group key),
`make_dataframes` raises: the leaderboard has fewer than `n_top = 10`
rows, and assigning the fixed-length `np.arange(n_top)+1` index column
fails with pandas' length-mismatch `ValueError`. -/
theorem claim_C9 (cord : List Handle) (rs : List UnitResult)
    (hok : drainRaw cord = .ok rs)
    (hkeys : ∀ r ∈ rs, ∀ p ∈ r.pred, p.key = r.metrics.key)
    (hfew : ((rs.map fun r => r.metrics.key).dedup).length < nTop) :
    make_dataframes cord
      = Except.error "Length of values does not match length of index" := by
  have hsubset : (dfHist (concatPred rs)).map PredRow.key
      ⊆ rs.map fun r => r.metrics.key := by
    intro k hk
    obtain ⟨p, hp, hpk⟩ := List.mem_map.mp hk
    have hp' : p ∈ (concatPred rs).filter (fun q => decide (q.kind = "actual")) := hp
    have hp2 : p ∈ (rs.map (fun r => r.pred)).flatten := (List.mem_filter.mp hp').1
    obtain ⟨l, hl, hpl⟩ := List.mem_flatten.mp hp2
    obtain ⟨r, hr, hrl⟩ := List.mem_map.mp hl
    rw [← hpk, hkeys r hr p (hrl ▸ hpl)]
    exact List.mem_map_of_mem _ hr
  have hlen : (groupbyAggSorted (dfHist (concatPred rs))).length
      = ((dfHist (concatPred rs)).map PredRow.key).dedup.length := by
    simp [groupbyAggSorted, (List.perm_insertionSort keyLeP _).length_eq, firstSeen_length]
  have hlt : (groupbyAggSorted (dfHist (concatPred rs))).length < nTop := by
    rw [hlen]
    exact lt_of_le_of_lt (dedup_length_le_of_subset hsubset) hfew
  have htoplen : (dfTopUnindexed (dfHist (concatPred rs))).length ≠ nTop := by
    have hq : (dfTopUnindexed (dfHist (concatPred rs))).length
        = min nTop (groupbyAggSorted (dfHist (concatPred rs))).length := by
      simp [dfTopUnindexed, List.length_take,
        (List.perm_insertionSort demandGeP _).length_eq]
    rw [hq]
    omega
  simp [make_dataframes, hok, assignTopIndex, htoplen]

/-- C9, witness: the theorem applied to the drained two-group exemplar
batch, whose two distinct group keys are fewer than 10. -/
theorem claim_C9_witness :
    make_dataframes exCordBA
      = Except.error "Length of values does not match length of index" :=
  claim_C9 exCordBA [exUnitB, exUnitA] (by decide) (by decide) (by decide)

/-- C10: `make_mask` returns the all-false mask whenever any of the
three keys is the empty string, and otherwise marks exactly the rows
whose three key columns equal the given channel, family, and item_id. -/
theorem claim_C10 {α : Type} (kOf : α → GroupKey) (df : List α)
    (channel family item_id : String) :
    make_mask kOf df channel family item_id =
      if channel = "" ∨ family = "" ∨ item_id = "" then df.map fun _ => false
      else df.map fun r => decide (kOf r = (channel, family, item_id)) := by
  by_cases hc : channel = "" ∨ family = "" ∨ item_id = ""
  · simp [make_mask, hc, List.map_map, Function.comp_def]
  · simp only [make_mask, if_neg hc]
    induction df with
    | nil => rfl
    | cons r t ih =>
      simp only [List.map_cons, andMask, List.zipWith_cons_cons] at ih ⊢
      rw [ih]
      congr 1
      rcases hk : kOf r with ⟨c, f, i⟩
      simp [Prod.ext_iff, Bool.and_assoc]

end SFS
